import Mathlib

/-!
# Verification of the `cpr` scaffolding tool against its specification

Shallow embedding of the Rust sources (`src/config.rs`, `src/errors.rs`,
`src/format.rs`, `src/main.rs`) of the `cpr` project-template scaffolder,
together with theorems settling the specification claims.

Conventions used throughout:
* Rust `HashMap` lookups become association-list lookups (`List.find?`).
* A Rust panic (`unwrap` / `expect` on `None`) is an explicit `panic`
  constructor of the modelled result type, carrying the panic message.
* Fallible Rust code (`Result`) becomes `Except`.
* Rust character classes and case conversions are modelled over ASCII,
  matching the behaviour of the library calls on ASCII input.
-/

namespace Cpr

/-! ## `src/config.rs`: service registry and clone-URL resolution -/

/-- Model of the Rust `str::replace` function over character lists: scan left to
right, and at each position where the (non-empty) pattern is a prefix,
emit the replacement and jump past the matched occurrence; the `skip`
counter counts pattern characters still to be consumed after a match. -/
def replaceAllAux (pat rep : List Char) : List Char → Nat → List Char
  | [], _ => []
  | _ :: rest, skip + 1 => replaceAllAux pat rep rest skip
  | c :: rest, 0 =>
    if pat.isPrefixOf (c :: rest) && decide (0 < pat.length) then
      rep ++ replaceAllAux pat rep rest (pat.length - 1)
    else
      c :: replaceAllAux pat rep rest 0

/-- Model of the Rust `str::replace` function: replace every non-overlapping
occurrence of `pat` in `s` by `rep`, scanning left to right. -/
def rustReplace (s pat rep : String) : String :=
  String.mk (replaceAllAux pat.toList rep.toList s.toList 0)

/-- Structure `BaseURL` from `config.rs`: the URL format for a git server. -/
structure BaseURL where
  url : String
deriving DecidableEq, Repr

/-- Structure `Config` from `config.rs`: prefix → URL-format map plus the default
prefix.  The `HashMap` is modelled as an association list. -/
structure Config where
  services : List (String × BaseURL)
  default_service : String
deriving DecidableEq, Repr

/-- Model of `HashMap::get`: lookup of a prefix in the services map. -/
def servicesGet (c : Config) (p : String) : Option BaseURL :=
  (c.services.find? (fun e => e.1 == p)).map (·.2)

/-- Error kind `ConfigErrorKind` from `config.rs`. -/
inductive ConfigErrorKind where
  | ServiceNotFound
deriving DecidableEq, Repr

/-- Possible outcomes of `Config::clone_url`: a returned URL, a returned
error value, or a Rust panic with its message. -/
inductive CloneUrlResult where
  | ok (url : String)
  | err (e : ConfigErrorKind)
  | panic (msg : String)
deriving DecidableEq, Repr

/-- Function `Config::clone_url` from `config.rs`: look the prefix up in
`services`; if absent fall back to the `default_service` entry, whose
absence hits `.expect("No default prefix found")` (a panic); finally
substitute the repository path for the `{{ repo }}` marker. -/
def Config.clone_url (c : Config) (pfx repo_path : String) : CloneUrlResult :=
  match servicesGet c pfx with
  | some base_url => .ok (rustReplace base_url.url "{{ repo }}" repo_path)
  | none =>
    match servicesGet c c.default_service with
    | some base_url => .ok (rustReplace base_url.url "{{ repo }}" repo_path)
    | none => .panic "No default prefix found"

end Cpr

namespace Cpr

/-- Example registry from the spec: `gh → https://github.com/{{ repo }}.git`,
default prefix `gh` (this is also the default config `Config::init` writes). -/
def ghConfig : Config :=
  { services := [("gh", ⟨"https://github.com/{{ repo }}.git"⟩)]
    default_service := "gh" }

/-- A registry with no services at all (default prefix dangling). -/
def emptyConfig : Config :=
  { services := [], default_service := "gh" }

end Cpr

namespace Cpr

/-! ## The `convert_case` library: word splitting and case patterns

`src/format.rs` calls `s.to_case(Case::X)` from the `convert_case` crate.
That library splits the input into words at the default boundaries
(underscore, hyphen, space, lower→upper, letter↔digit transitions, and
acronym ends), applies a per-word pattern, and joins with a delimiter.
Character classes are modelled over ASCII. -/

/-- ASCII model of `char::is_lowercase`. -/
def isLowerCh (c : Char) : Bool := 97 ≤ c.toNat && c.toNat ≤ 122

/-- ASCII model of `char::is_uppercase`. -/
def isUpperCh (c : Char) : Bool := 65 ≤ c.toNat && c.toNat ≤ 90

/-- ASCII model of `char::is_ascii_digit`. -/
def isDigitCh (c : Char) : Bool := 48 ≤ c.toNat && c.toNat ≤ 57

/-- The three delimiter boundaries (`_`, `-`, space): split and drop. -/
def isDelim (c : Char) : Bool := c == '_' || c == '-' || c == ' '

/-- The non-delimiter default boundaries of `convert_case` between a
previous char `p` and the current char `c` (`next` is the char after `c`):
LowerUpper, UpperDigit, DigitUpper, DigitLower, LowerDigit, Acronym. -/
def boundaryBetween (p c : Char) (next : Option Char) : Bool :=
  (isLowerCh p && isUpperCh c) ||
  (isUpperCh p && isDigitCh c) ||
  (isDigitCh p && isUpperCh c) ||
  (isDigitCh p && isLowerCh c) ||
  (isLowerCh p && isDigitCh c) ||
  (isUpperCh p && isUpperCh c &&
    (match next with | some n => isLowerCh n | none => false))

/-- Split a character list into words at the default boundaries.  `cur`
is the current word, reversed (so its head is the previous character);
delimiters are dropped, empty words never produced. -/
def splitWordsAux : List Char → List Char → List (List Char)
  | [], cur => if cur.isEmpty then [] else [cur.reverse]
  | c :: rest, cur =>
    if isDelim c then
      if cur.isEmpty then splitWordsAux rest []
      else cur.reverse :: splitWordsAux rest []
    else
      match cur with
      | [] => splitWordsAux rest [c]
      | p :: _ =>
        if boundaryBetween p c rest.head? then
          cur.reverse :: splitWordsAux rest [c]
        else
          splitWordsAux rest (c :: cur)

/-- The words of a string, per `convert_case` default boundaries. -/
def splitWords (s : String) : List String :=
  (splitWordsAux s.toList []).map String.mk

/-- Plain character-wise uppercasing (ASCII model of `str::to_uppercase`
applied to a whole string: same characters, letters uppercased). -/
def plainUpper (s : String) : String := String.mk (s.toList.map Char.toUpper)

/-- Per-word `Pattern::Uppercase` (ASCII model of `str::to_uppercase`). -/
def upperWord (w : String) : String := String.mk (w.toList.map Char.toUpper)

/-- Per-word `Pattern::Lowercase` (ASCII model of `str::to_lowercase`). -/
def lowerWord (w : String) : String := String.mk (w.toList.map Char.toLower)

/-- Per-word `Pattern::Capital`: first char uppercased, rest lowercased. -/
def capitalizeWord (w : String) : String :=
  match w.toList with
  | [] => ""
  | c :: cs => String.mk (Char.toUpper c :: cs.map Char.toLower)

/-- Transform `to_case(Case::Upper)`: words uppercased, joined by spaces. -/
def toCaseUpper (s : String) : String :=
  String.intercalate " " ((splitWords s).map upperWord)

/-- Transform `to_case(Case::Lower)`: words lowercased, joined by spaces. -/
def toCaseLower (s : String) : String :=
  String.intercalate " " ((splitWords s).map lowerWord)

/-- Transform `to_case(Case::Snake)`: words lowercased, joined by underscores. -/
def toCaseSnake (s : String) : String :=
  String.intercalate "_" ((splitWords s).map lowerWord)

/-- Transform `to_case(Case::Kebab)`: words lowercased, joined by hyphens. -/
def toCaseKebab (s : String) : String :=
  String.intercalate "-" ((splitWords s).map lowerWord)

/-- Transform `to_case(Case::Title)`: words capitalized, joined by spaces. -/
def toCaseTitle (s : String) : String :=
  String.intercalate " " ((splitWords s).map capitalizeWord)

/-- Transform `to_case(Case::Pascal)`: words capitalized, joined directly. -/
def toCasePascal (s : String) : String :=
  String.join ((splitWords s).map capitalizeWord)

/-- Transform `to_case(Case::Camel)`: first word lowercased, rest capitalized. -/
def toCaseCamel (s : String) : String :=
  match splitWords s with
  | [] => ""
  | w :: ws => lowerWord w ++ String.join (ws.map capitalizeWord)

/-! ## `src/format.rs`: the seven formatter functions

Here `upon::Value` is the value type of the template engine; the float payload is
not inspected by any embedded code and is left abstract. -/

/-- Type `upon::Value`. -/
inductive UponValue where
  | none
  | str (s : String)
  | int (n : Int)
  | float
  | bool (b : Bool)
  | list (vs : List UponValue)
  | map (kvs : List (String × UponValue))

/-- Whether a value is `Value::String`. -/
def UponValue.isStr : UponValue → Bool
  | .str _ => true
  | _ => false

end Cpr

namespace Cpr.format

/-- Function `format::lower`: errors on `None` and on every non-string value,
formats a string via `Case::Lower`. -/
def lower : UponValue → Except String String
  | .none => .error "unable to format None"
  | .str s => .ok (toCaseLower s)
  | _ => .error "expected to format a string"

/-- Function `format::upper`. -/
def upper : UponValue → Except String String
  | .none => .error "unable to format None"
  | .str s => .ok (toCaseUpper s)
  | _ => .error "expected to format a string"

/-- Function `format::snake`. -/
def snake : UponValue → Except String String
  | .none => .error "unable to format None"
  | .str s => .ok (toCaseSnake s)
  | _ => .error "expected to format a string"

/-- Function `format::kebab`. -/
def kebab : UponValue → Except String String
  | .none => .error "unable to format None"
  | .str s => .ok (toCaseKebab s)
  | _ => .error "expected to format a string"

/-- Function `format::pascal`. -/
def pascal : UponValue → Except String String
  | .none => .error "unable to format None"
  | .str s => .ok (toCasePascal s)
  | _ => .error "expected to format a string"

/-- Function `format::camel`. -/
def camel : UponValue → Except String String
  | .none => .error "unable to format None"
  | .str s => .ok (toCaseCamel s)
  | _ => .error "expected to format a string"

/-- Function `format::title`. -/
def title : UponValue → Except String String
  | .none => .error "unable to format None"
  | .str s => .ok (toCaseTitle s)
  | _ => .error "expected to format a string"

end Cpr.format

namespace Cpr

/-- The names of the seven formatters registered on the engine in `init`. -/
inductive FilterName where
  | lower | upper | snake | kebab | pascal | camel | title
deriving DecidableEq, Repr

/-- Dispatch a formatter name to its `src/format.rs` function. -/
def filterImpl : FilterName → UponValue → Except String String
  | .lower => format.lower
  | .upper => format.upper
  | .snake => format.snake
  | .kebab => format.kebab
  | .pascal => format.pascal
  | .camel => format.camel
  | .title => format.title

/-- The `engine.add_formatter` registrations performed by `init` in
`src/main.rs`, in order. -/
def formatters : List (String × FilterName) :=
  [("lower", .lower), ("upper", .upper), ("snake", .snake), ("kebab", .kebab),
   ("pascal", .pascal), ("camel", .camel), ("title", .title)]

/-- Whether an `Except` result succeeded. -/
def isOkResult {ε α : Type} : Except ε α → Bool
  | .ok _ => true
  | .error _ => false

/-! ## Fragment of the `upon` template engine used by the claims:
templates made of literal text and `{{ name | filter }}` expressions. -/

/-- One parsed template segment. -/
inductive Segment where
  | lit (s : String)
  | filtered (name : String) (filter : String)

/-- Variable lookup in the render environment. -/
def lookupEnv (env : List (String × UponValue)) (n : String) : Option UponValue :=
  (env.find? (fun p => p.1 == n)).map (·.2)

/-- Render one segment: look the variable up, then apply the named
registered formatter; unknown variables and unknown filters error. -/
def renderSegment (env : List (String × UponValue)) : Segment → Except String String
  | .lit s => .ok s
  | .filtered n f =>
    match lookupEnv env n with
    | Option.none => .error ("not found in this scope: " ++ n)
    | some v =>
      match (formatters.find? (fun p => p.1 == f)).map (·.2) with
      | Option.none => .error ("unknown filter or formatter: " ++ f)
      | some fn => filterImpl fn v

/-- Render a parsed template by accumulating segment outputs. -/
def renderTemplateAux (env : List (String × UponValue)) (acc : String) :
    List Segment → Except String String
  | [] => .ok acc
  | seg :: rest =>
    match renderSegment env seg with
    | .error e => .error e
    | .ok s => renderTemplateAux env (acc ++ s) rest

/-- Render a parsed template against an environment. -/
def renderTemplate (env : List (String × UponValue)) (t : List Segment) :
    Except String String :=
  renderTemplateAux env "" t

/-- The parsed form of the template string `{{ v | upper }}`. -/
def upperTemplate : List Segment := [.filtered "v" "upper"]

/-! ## `src/main.rs`, `prompt_template_questions`: the question-schema
interpreter over parsed TOML values -/

/-- Type `toml::Value`; the float and datetime payloads are never
inspected by the embedded code and are left abstract. -/
inductive TomlValue where
  | str (s : String)
  | int (n : Int)
  | float
  | bool (b : Bool)
  | datetime
  | array (vs : List TomlValue)
  | table (kvs : List (String × TomlValue))

/-- Model of `toml::Table::get` on a table. -/
def tableGet (t : List (String × TomlValue)) (k : String) : Option TomlValue :=
  (t.find? (fun p => p.1 == k)).map (·.2)

/-- Model of `table.get(k).unwrap().as_str().unwrap()`: both a missing
field and a non-string field hit an `unwrap` on `None`, a panic. -/
def getStrField (t : List (String × TomlValue)) (k : String) :
    Except String String :=
  match tableGet t k with
  | Option.none => .error ("panicked at unwrap: no field " ++ k)
  | some (.str s) => .ok s
  | some _ => .error ("panicked at unwrap: field " ++ k ++ " is not a string")

/-- One entry of a `requestty` choice list: a real choice or the default
separator produced by the reserved `cpr_sep` value. -/
inductive QChoice where
  | sep
  | item (s : String)
deriving DecidableEq, Repr

/-- The typed prompt descriptors built by `prompt_template_questions`. -/
inductive Question where
  | confirm (key message : String)
  | input (key message : String)
  | int (key message : String)
  | float (key message : String)
  | select (key message : String) (choices : List QChoice)
  | multiSelect (key message : String) (choices : List QChoice)
  | orderSelect (key message : String) (choices : List String)
deriving DecidableEq, Repr

/-- The choice-processing loop: strings other than `cpr_sep` go to both
the presented list and the raw list, `cpr_sep` becomes a separator in the
presented list only, and non-string choices are silently ignored. -/
def processChoices : List TomlValue → List QChoice × List String
  | [] => ([], [])
  | .str c :: rest =>
    let (items, raw) := processChoices rest
    if c == "cpr_sep" then (QChoice.sep :: items, raw)
    else (QChoice.item c :: items, c :: raw)
  | _ :: rest => processChoices rest

/-- Outcome of interpreting one element of the `questions` array. -/
inductive EntryResult where
  | panic (msg : String)
  | question (q : Question)
  | skip (warning : String)

/-- Interpretation of one `questions` element, following the match in
`prompt_template_questions`: non-tables are skipped with a warning; the
`key`, `message` and `type` fields are read with unchecked unwraps;
known scalar types build their question; the three selection types
unwrap the `choices` field (panicking when it is missing), skip with a
warning when it is not an array, and otherwise build their question;
unknown types are skipped with a warning. -/
def interpretTableEntry (t : List (String × TomlValue)) : EntryResult :=
    match getStrField t "key" with
    | .error m => .panic m
    | .ok key =>
      match getStrField t "message" with
      | .error m => .panic m
      | .ok message =>
        match getStrField t "type" with
        | .error m => .panic m
        | .ok ty =>
          match ty with
          | "confirm" => .question (.confirm key message)
          | "input" => .question (.input key message)
          | "int" => .question (.int key message)
          | "float" => .question (.float key message)
          | "select" | "multi_select" | "order_select" =>
            match tableGet t "choices" with
            | Option.none => .panic "panicked at unwrap: no field choices"
            | some (.array choices) =>
              let (items, items_raw) := processChoices choices
              match ty with
              | "select" => .question (.select key message items)
              | "multi_select" => .question (.multiSelect key message items)
              | _ => .question (.orderSelect key message items_raw)
            | some _ =>
              .skip ("! WARN: Expected array of *tables* for [questions." ++ key
                ++ ".choices] in cpr.toml, skipping")
          | _ =>
            .skip ("! WARN: Unknown question type `" ++ ty ++ "` for key `"
              ++ key ++ "`, skipping")

/-- Interpretation of one `questions` element: a non-table element is
skipped with a warning, a table is interpreted by `interpretTableEntry`. -/
def interpretEntry : TomlValue → EntryResult
  | .table t => interpretTableEntry t
  | _ => .skip "! WARN: Expected array of *tables* for [questions] in cpr.toml, skipping"

/-- Result of the schema-interpretation loop: either a Rust panic, or
the built question list together with the warnings printed along the
way.  The loop itself has no error-return path. -/
inductive InterpResult where
  | panic (msg : String)
  | ok (questions : List Question) (warnings : List String)

/-- Whether interpretation panicked. -/
def InterpResult.isPanic : InterpResult → Bool
  | .panic _ => true
  | .ok _ _ => false

/-- The schema-interpretation loop of `prompt_template_questions` over
the `questions` array, processing entries in order. -/
def interpretQuestions : List TomlValue → InterpResult
  | [] => .ok [] []
  | e :: rest =>
    match interpretEntry e with
    | .panic m => .panic m
    | .question q =>
      match interpretQuestions rest with
      | .panic m => .panic m
      | .ok qs ws => .ok (q :: qs) ws
    | .skip w =>
      match interpretQuestions rest with
      | .panic m => .panic m
      | .ok qs ws => .ok qs (w :: ws)

/-- Shape of a `questions` element that is a table with a `select` type
but no `choices` field, as in claim C3. -/
def selectMissingChoices (v : TomlValue) : Prop :=
  ∃ t, v = TomlValue.table t ∧
    tableGet t "type" = some (.str "select") ∧
    tableGet t "choices" = Option.none

/-- Shape of a malformed element the interpreter skips with a warning:
either not a table at all, or a table whose `key`, `message` and `type`
fields are present as strings but whose `type` is not one of the seven
known question types. -/
def skippableMalformed (v : TomlValue) : Prop :=
  (∀ t, v ≠ TomlValue.table t) ∨
  (∃ t key message ty, v = TomlValue.table t ∧
    getStrField t "key" = .ok key ∧
    getStrField t "message" = .ok message ∧
    getStrField t "type" = .ok ty ∧
    ty ∉ (["confirm", "input", "int", "float", "select", "multi_select",
      "order_select"] : List String))

/-! ## `src/main.rs`, `init`: the per-file walk with its error-recovery
policy, and the `cpr.toml` cleanup step -/

/-- The three answers of the read-failure prompt in `init`. -/
inductive ErrChoice where
  | skipThis
  | skipAllFuture
  | abort
deriving DecidableEq, Repr

/-- One non-directory entry visited by the walk: its name, the outcome
of `fs::read_to_string` (`none` models a read failure), and whether the
later `fs::write` would succeed. -/
structure SrcFile where
  name : String
  read : Option String
  writeOk : Bool
deriving DecidableEq, Repr

/-- Errors of the walk, mirroring `errors.rs` plus the template-engine
error: `ProjectInitError::ReadFileFail`, `ProjectInitError::WriteFileFail`,
and a fatal `upon` parse/render error. -/
inductive PipeError where
  | readFileFail (name : String)
  | writeFileFail (name : String)
  | renderFail (msg : String)
deriving DecidableEq, Repr

/-- The per-file loop of `init` over the walked files, in walk order.
`render` abstracts `engine.add_template` plus `.render(..)` on the
file contents (environment fixed for the whole run); `choices` is the
interactive prompter answering the read-failure prompt (its `k`-th answer
for the `k`-th prompt shown); `skip_all` is the `skip_all` flag.  A read
failure with the flag set is skipped silently (no prompt); otherwise the
user choice skips, sets the flag, or aborts with the original
`ReadFileFail`.  Render errors and write failures are fatal.  Returns the
chronological list of (name, contents) pairs written. -/
def walkFiles (render : String → Except String String)
    (choices : Nat → ErrChoice) :
    List SrcFile → Nat → Bool → Except PipeError (List (String × String))
  | [], _, _ => .ok []
  | f :: rest, k, skip_all =>
    match f.read with
    | Option.none =>
      if skip_all then walkFiles render choices rest k skip_all
      else
        match choices k with
        | .skipThis => walkFiles render choices rest (k + 1) skip_all
        | .skipAllFuture => walkFiles render choices rest (k + 1) true
        | .abort => .error (.readFileFail f.name)
    | some contents =>
      match render contents with
      | .error m => .error (.renderFail m)
      | .ok rendered =>
        if f.writeOk then
          match walkFiles render choices rest k skip_all with
          | .error e => .error e
          | .ok ws => .ok ((f.name, rendered) :: ws)
        else .error (.writeFileFail f.name)

/-- The writes the walk performs when no failure interrupts it: each
readable file whose render succeeds is written back. -/
def expectedWrites (render : String → Except String String) :
    List SrcFile → List (String × String)
  | [] => []
  | f :: rest =>
    match f.read with
    | some contents =>
      match render contents with
      | .ok rendered => (f.name, rendered) :: expectedWrites render rest
      | .error _ => expectedWrites render rest
    | Option.none => expectedWrites render rest

/-- A file on which the walk cannot fail: it reads, renders and writes
successfully. -/
def fileGood (render : String → Except String String) (f : SrcFile) : Prop :=
  ∃ c o, f.read = some c ∧ render c = .ok o ∧ f.writeOk = true

/-- Observable outcome of a successful `init` run: the chronological
writes of the walk, and the file names still on disk after the cleanup
step. -/
structure InitOutcome where
  writes : List (String × String)
  remaining : List String
deriving DecidableEq, Repr

/-- The walk phase of `init` (`skip_all` starts `false`) followed by the
cleanup step, which removes `cpr.toml` if present. -/
def initRun (render : String → Except String String)
    (choices : Nat → ErrChoice) (files : List SrcFile) :
    Except PipeError InitOutcome :=
  match walkFiles render choices files 0 false with
  | .error e => .error e
  | .ok ws =>
    .ok ⟨ws, (files.map (·.name)).filter (fun n => !(n == "cpr.toml"))⟩

/-- A render function used for concrete runs: fails exactly on the
contents `bad`, identity otherwise. -/
def rendBad : String → Except String String :=
  fun s => if s == "bad" then .error "format" else .ok s

/-! ## `src/main.rs`, `clone_repository`: the transfer-progress callback -/

/-- The fields of `git2::Progress` read by the transfer callback. -/
structure Stats where
  total_objects : Nat
  received_objects : Nat
  indexed_deltas : Nat
  total_deltas : Nat
deriving DecidableEq, Repr

/-- Structure `GitCloneState` from `main.rs`. -/
structure GitCloneState where
  total : Nat
  current : Nat
  path : Option String
  started_resolution : Bool
deriving DecidableEq, Repr

/-- Observable state of the `indicatif` progress bar: its range length,
position and message.  A `bar.reset()` call clears the position (and
the elapsed time, not modelled); the callback model below also reports
whether a reset happened. -/
structure ProgressBarState where
  length : Nat
  pos : Nat
  message : String
deriving DecidableEq, Repr

/-- The `transfer_progress` callback of `clone_repository`: store the
progress counts; when `current == total` enter the delta-resolution
branch — set the message, call `bar.reset()` when `started_resolution`
is already set, switch the range to the delta counters and set
`started_resolution` — otherwise show object-transfer progress.  The
returned flag records whether `bar.reset()` was called. -/
def transfer_progress (repo_path : String) (st : GitCloneState)
    (bar : ProgressBarState) (stats : Stats) :
    GitCloneState × ProgressBarState × Bool :=
  let st := { st with total := stats.total_objects, current := stats.received_objects }
  if st.current == st.total then
    let msg := "Resolving deltas " ++ toString stats.indexed_deltas ++ "/"
      ++ toString stats.total_deltas
    let bar := { bar with message := msg }
    let reset := st.started_resolution
    let bar := if reset then { bar with pos := 0 } else bar
    let bar := { bar with length := stats.total_deltas, pos := stats.indexed_deltas }
    ({ st with started_resolution := true }, bar, reset)
  else
    let msg := "Cloning " ++ repo_path ++ " (" ++ toString st.current ++ "/"
      ++ toString st.total ++ " objects)"
    let bar := { bar with length := st.total, pos := st.current, message := msg }
    (st, bar, false)

/-- Run the transfer callback over a sequence of progress reports,
collecting the per-callback reset flags. -/
def runTransferCallbacks (repo_path : String) :
    GitCloneState → ProgressBarState → List Stats →
    GitCloneState × ProgressBarState × List Bool
  | st, bar, [] => (st, bar, [])
  | st, bar, s :: rest =>
    let r := transfer_progress repo_path st bar s
    let rec_rest := runTransferCallbacks repo_path r.1 r.2.1 rest
    (rec_rest.1, rec_rest.2.1, r.2.2 :: rec_rest.2.2)

/-- The clone state as initialised at the top of `clone_repository`. -/
def initialCloneState : GitCloneState :=
  { total := 0, current := 0, path := Option.none, started_resolution := false }

/-- The bar as initialised by `ProgressBar::new(100)`. -/
def initialBarState : ProgressBarState :=
  { length := 100, pos := 0, message := "" }

/-- A concrete progress sequence: one object-transfer callback
(1 of 2 objects received), then three delta-resolution callbacks
(2 of 2 received, deltas 1, 3, 5 of 5). -/
def sampleCloneStats : List Stats :=
  [⟨2, 1, 0, 5⟩, ⟨2, 2, 1, 5⟩, ⟨2, 2, 3, 5⟩, ⟨2, 2, 5, 5⟩]

/-! ## `src/main.rs`, `new`: project-directory creation -/

/-- Error enum `ProjectInitError` from `errors.rs`. -/
inductive ProjectInitError where
  | ProjectDirExists
  | ProjectDirCreateFail
  | GitCloneFail
  | GitRepoNotFound
  | WriteFileFail (name : String)
  | ReadFileFail (name : String)
deriving DecidableEq, Repr

/-- ASCII model of the Rust `str::to_lowercase` function. -/
def rustToLowercase (s : String) : String :=
  String.mk (s.toList.map Char.toLower)

/-- Side effects of a successful `new` before `init` takes over. -/
inductive NewAction where
  | createDir (name : String)
  | runInit (dir : String)
deriving DecidableEq, Repr

/-- Function `new` from `main.rs`: the target directory is the
lowercased prompted project name; if it exists, fail with
`ProjectDirExists` doing nothing; otherwise create it (`createOk` models
whether `fs::create_dir` succeeds) and run `init` in it. -/
def new (existing : List String) (createOk : Bool) (project_name : String) :
    Except ProjectInitError (List NewAction) :=
  let project_dir := rustToLowercase project_name
  if existing.contains project_dir then .error .ProjectDirExists
  else if createOk then .ok [.createDir project_dir, .runInit project_dir]
  else .error .ProjectDirCreateFail

end Cpr

/-- C1, the claim as stated is false: With an empty registry (neither the
requested prefix `gh` nor the default prefix exists), `clone_url` does not
return the `ServiceNotFound` error: it panics with `No default prefix
found` instead. -/
theorem c1_counterexample :
    Cpr.Config.clone_url Cpr.emptyConfig "gh" "x" ≠
      Cpr.CloneUrlResult.err Cpr.ConfigErrorKind.ServiceNotFound ∧
    Cpr.Config.clone_url Cpr.emptyConfig "gh" "x" =
      Cpr.CloneUrlResult.panic "No default prefix found" := by
  constructor <;> decide

/-- C1, amended: Resolution fails — by panicking with `No default
prefix found`, not by returning `ServiceNotFound` — if and only if neither
the requested prefix nor the default prefix of the registry exists in the
services map. -/
theorem c1_amended (R : Cpr.Config) (p x : String) :
    Cpr.Config.clone_url R p x =
      Cpr.CloneUrlResult.panic "No default prefix found" ↔
    (Cpr.servicesGet R p = none ∧ Cpr.servicesGet R R.default_service = none) := by
  unfold Cpr.Config.clone_url
  cases h₁ : Cpr.servicesGet R p with
  | some b => simp
  | none =>
    cases h₂ : Cpr.servicesGet R R.default_service with
    | some b => simp
    | none => simp

/-- C2: If the requested prefix `p` is present in the registry,
resolution yields its URL template with the `{{ repo }}` marker replaced by
the path; if `p` is absent but the default prefix is present, resolution
falls back to the URL template of the default entry, marker likewise replaced. -/
theorem c2_resolution (R : Cpr.Config) (p x : String) :
    (∀ b, Cpr.servicesGet R p = some b →
      Cpr.Config.clone_url R p x = .ok (Cpr.rustReplace b.url "{{ repo }}" x)) ∧
    (Cpr.servicesGet R p = none →
      ∀ b, Cpr.servicesGet R R.default_service = some b →
        Cpr.Config.clone_url R p x = .ok (Cpr.rustReplace b.url "{{ repo }}" x)) := by
  constructor
  · intro b hb
    unfold Cpr.Config.clone_url
    rw [hb]
  · intro hp b hb
    unfold Cpr.Config.clone_url
    rw [hp, hb]

/-- C2, witness: the end-to-end example of the spec: `gh:org/template`
against the `gh` registry resolves to `https://github.com/org/template.git`. -/
theorem c2_resolution_witness :
    Cpr.Config.clone_url Cpr.ghConfig "gh" "org/template" =
      .ok "https://github.com/org/template.git" := by
  have h := (c2_resolution Cpr.ghConfig "gh" "org/template").1
    ⟨"https://github.com/{{ repo }}.git"⟩ (by decide)
  rw [h]
  decide

namespace Cpr

/-! ### Helper lemmas about `convert_case` word splitting on
all-lowercase input -/

theorem lower_not_delim {c : Char} (h : isLowerCh c = true) :
    isDelim c = false := by
  cases hd : isDelim c with
  | false => rfl
  | true =>
    exfalso
    simp only [isDelim, Bool.or_eq_true, beq_iff_eq] at hd
    rcases hd with (rfl | rfl) | rfl <;> revert h <;> decide

theorem lower_not_upper {c : Char} (h : isLowerCh c = true) :
    isUpperCh c = false := by
  simp only [isLowerCh, Bool.and_eq_true, decide_eq_true_eq] at h
  rw [← Bool.not_eq_true]
  simp only [isUpperCh, Bool.and_eq_true, decide_eq_true_eq]
  omega

theorem lower_not_digit {c : Char} (h : isLowerCh c = true) :
    isDigitCh c = false := by
  simp only [isLowerCh, Bool.and_eq_true, decide_eq_true_eq] at h
  rw [← Bool.not_eq_true]
  simp only [isDigitCh, Bool.and_eq_true, decide_eq_true_eq]
  omega

theorem boundaryBetween_lower_lower {p c : Char} (hp : isLowerCh p = true)
    (hc : isLowerCh c = true) (next : Option Char) :
    boundaryBetween p c next = false := by
  simp only [boundaryBetween, lower_not_upper hp, lower_not_upper hc,
    lower_not_digit hp, lower_not_digit hc, Bool.false_and, Bool.and_false,
    Bool.or_false, Bool.false_or, Bool.or_self]

theorem splitWordsAux_lower_run (l : List Char) :
    (∀ c ∈ l, isLowerCh c = true) →
    ∀ (p : Char) (cur : List Char), isLowerCh p = true →
      splitWordsAux l (p :: cur) = [(p :: cur).reverse ++ l] := by
  induction l with
  | nil =>
    intro _ p cur _
    simp [splitWordsAux]
  | cons c rest ih =>
    intro hl p cur hp
    have hc : isLowerCh c = true := hl c (List.mem_cons_self c rest)
    have hrest : ∀ x ∈ rest, isLowerCh x = true :=
      fun x hx => hl x (List.mem_cons_of_mem c hx)
    simp only [splitWordsAux, lower_not_delim hc,
      boundaryBetween_lower_lower hp hc, Bool.false_eq_true, if_false,
      ih hrest c (p :: cur) hc, List.reverse_cons, List.append_assoc,
      List.singleton_append, List.cons_append, List.nil_append]

theorem toCaseUpper_of_all_lower (s : String)
    (h : s.toList.all isLowerCh = true) :
    toCaseUpper s = plainUpper s := by
  rcases s with ⟨data⟩
  cases data with
  | nil => rfl
  | cons c cs =>
    have h' : ∀ x ∈ c :: cs, isLowerCh x = true := by
      intro x hx
      exact List.all_eq_true.mp h x hx
    have hc : isLowerCh c = true := h' c (List.mem_cons_self c cs)
    have hcs : ∀ x ∈ cs, isLowerCh x = true :=
      fun x hx => h' x (List.mem_cons_of_mem c hx)
    show String.intercalate " "
      (((splitWordsAux (c :: cs) []).map String.mk).map upperWord) = _
    simp only [splitWordsAux, lower_not_delim hc, Bool.false_eq_true, if_false,
      splitWordsAux_lower_run cs hcs c [] hc, List.reverse_cons,
      List.reverse_nil, List.nil_append, List.singleton_append, List.map]
    rfl

end Cpr

/-- C7, the claim as stated is false: Binding `v` to the string `a_b` and
rendering `{{ v | upper }}` yields `A B`: the `convert_case` transform `Case::Upper`
splits the value into words, drops the underscore and joins with a space,
so the output is not the character-wise uppercase `A_B`. -/
theorem c7_counterexample :
    Cpr.renderTemplate [("v", Cpr.UponValue.str "a_b")] Cpr.upperTemplate =
      Except.ok "A B" ∧ ("A B" : String) ≠ "A_B" := by
  constructor
  · rfl
  · decide

/-- C7, amended: Rendering `{{ v | upper }}` with `v` bound to string
`s` yields the `convert_case` UPPER CASE transform of `s` (words uppercased
and joined by single spaces, word boundaries and delimiters not
preserved); when `s` contains no word boundary at all (for instance, `s`
is all lowercase ASCII letters) this coincides with the plain
character-wise uppercase of `s`. -/
theorem c7_upper_render (s : String) :
    Cpr.renderTemplate [("v", Cpr.UponValue.str s)] Cpr.upperTemplate =
      Except.ok (Cpr.toCaseUpper s) ∧
    (s.toList.all Cpr.isLowerCh = true →
      Cpr.toCaseUpper s = Cpr.plainUpper s) := by
  constructor
  · rfl
  · exact Cpr.toCaseUpper_of_all_lower s

/-- C7 amended, witness: Concrete instance at `s = "abc"`. -/
theorem c7_upper_render_witness :
    Cpr.renderTemplate [("v", Cpr.UponValue.str "abc")] Cpr.upperTemplate =
      Except.ok (Cpr.toCaseUpper "abc") ∧
    Cpr.toCaseUpper "abc" = Cpr.plainUpper "abc" :=
  ⟨(c7_upper_render "abc").1, (c7_upper_render "abc").2 (by decide)⟩

/-- C8: Every one of the seven registered formatting filters fails
(returns a format error, never success) on every non-string value,
including the absent value `Value::None`. -/
theorem c8_filters_reject_non_strings (f : Cpr.FilterName) (v : Cpr.UponValue)
    (hv : v.isStr = false) :
    Cpr.isOkResult (Cpr.filterImpl f v) = false := by
  cases f <;> cases v <;> first
    | rfl
    | simp [Cpr.UponValue.isStr] at hv

/-- C8, witness: The `upper` filter applied to `Value::None` fails. -/
theorem c8_filters_reject_non_strings_witness :
    Cpr.isOkResult (Cpr.filterImpl Cpr.FilterName.upper Cpr.UponValue.none) = false :=
  c8_filters_reject_non_strings Cpr.FilterName.upper Cpr.UponValue.none rfl

namespace Cpr

/-! ### Helper lemmas about the question-schema interpreter -/

theorem interpretQuestions_cons_panic (e : TomlValue) (rest : List TomlValue)
    (h : (interpretQuestions rest).isPanic = true) :
    (interpretQuestions (e :: rest)).isPanic = true := by
  unfold interpretQuestions
  cases he : interpretEntry e <;>
    cases hr : interpretQuestions rest <;>
    simp_all [InterpResult.isPanic]

theorem interpretEntry_panics_of_selectMissingChoices {v : TomlValue}
    (h : selectMissingChoices v) : ∃ m, interpretEntry v = EntryResult.panic m := by
  obtain ⟨t, rfl, hty, hch⟩ := h
  have hty' : getStrField t "type" = Except.ok "select" := by
    unfold getStrField
    rw [hty]
  show ∃ m, interpretTableEntry t = EntryResult.panic m
  unfold interpretTableEntry
  cases hk : getStrField t "key" with
  | error m => exact ⟨m, rfl⟩
  | ok key =>
    cases hm : getStrField t "message" with
    | error m => exact ⟨m, rfl⟩
    | ok message =>
      rw [hty', hch]
      exact ⟨_, rfl⟩

end Cpr

/-- C3: interpreting a questions array that contains a table entry whose
`type` is `select` but which has no `choices` field always panics (the
unchecked `unwrap` on the `choices` lookup, or an earlier unchecked
`unwrap` of that same entry, is reached); it never returns an error value
or skips such an entry. -/
theorem c3_select_without_choices_panics (qs : List Cpr.TomlValue)
    (h : ∃ v ∈ qs, Cpr.selectMissingChoices v) :
    (Cpr.interpretQuestions qs).isPanic = true := by
  induction qs with
  | nil => simp at h
  | cons e rest ih =>
    obtain ⟨v, hv, hsel⟩ := h
    rcases List.mem_cons.mp hv with rfl | hvr
    · obtain ⟨m, hm⟩ := Cpr.interpretEntry_panics_of_selectMissingChoices hsel
      unfold Cpr.interpretQuestions
      rw [hm]
      rfl
    · exact Cpr.interpretQuestions_cons_panic e rest (ih ⟨v, hvr, hsel⟩)

/-- C3, witness: the singleton array whose only entry has `key`,
`message` and `type = select` but no `choices` panics. -/
theorem c3_select_without_choices_panics_witness :
    (Cpr.interpretQuestions
      [Cpr.TomlValue.table
        [("key", Cpr.TomlValue.str "k"), ("message", Cpr.TomlValue.str "m"),
         ("type", Cpr.TomlValue.str "select")]]).isPanic = true :=
  c3_select_without_choices_panics _
    ⟨_, List.mem_singleton.mpr rfl, _, rfl, rfl, rfl⟩

namespace Cpr

theorem interpretQuestions_cons_skip {e : TomlValue} {w : String}
    (he : interpretEntry e = EntryResult.skip w) (rest : List TomlValue)
    (qs : List Question) (ws : List String)
    (hr : interpretQuestions rest = .ok qs ws) :
    interpretQuestions (e :: rest) = .ok qs (w :: ws) := by
  unfold interpretQuestions
  rw [he, hr]

theorem interpretEntry_skips_of_skippableMalformed {v : TomlValue}
    (h : skippableMalformed v) : ∃ w, interpretEntry v = EntryResult.skip w := by
  rcases h with hnt | ⟨t, key, message, ty, rfl, hk, hm, hty, hout⟩
  · cases v with
    | table t => exact absurd rfl (hnt t)
    | str s => exact ⟨_, rfl⟩
    | int n => exact ⟨_, rfl⟩
    | float => exact ⟨_, rfl⟩
    | bool b => exact ⟨_, rfl⟩
    | datetime => exact ⟨_, rfl⟩
    | array vs => exact ⟨_, rfl⟩
  · show ∃ w, interpretTableEntry t = EntryResult.skip w
    unfold interpretTableEntry
    rw [hk, hm, hty]
    simp only [List.mem_cons, List.not_mem_nil, or_false, not_or] at hout
    split <;> simp_all

end Cpr

/-- C4, the claim as stated is false: a table entry that is missing the
required field `key` (a malformed schema entry in the sense of the claim)
makes interpretation panic via an unchecked `unwrap`, not skip with a
warning. -/
theorem c4_counterexample :
    (Cpr.interpretQuestions
      [Cpr.TomlValue.table
        [("message", Cpr.TomlValue.str "m"),
         ("type", Cpr.TomlValue.str "input")]]).isPanic = true := rfl

/-- C4, amended: interpretation is non-fatal only for two malformed
shapes — an element that is not a table, and a table whose `key`,
`message` and `type` fields are present as strings but whose `type` is
unknown; those are skipped with a warning and the remaining questions
are still produced.  A table missing `key`, `message` or `type` (or
holding them as non-strings) panics instead. -/
theorem c4_malformed_skipped (e : Cpr.TomlValue) (rest : List Cpr.TomlValue)
    (h : Cpr.skippableMalformed e) :
    ∃ w, Cpr.interpretEntry e = Cpr.EntryResult.skip w ∧
      ∀ qs ws, Cpr.interpretQuestions rest = .ok qs ws →
        Cpr.interpretQuestions (e :: rest) = .ok qs (w :: ws) := by
  obtain ⟨w, hw⟩ := Cpr.interpretEntry_skips_of_skippableMalformed h
  exact ⟨w, hw, fun qs ws hr => Cpr.interpretQuestions_cons_skip hw rest qs ws hr⟩

/-- C4 amended, witness: an entry with unknown type `zelect` is skipped
with a warning and the (empty) remaining question set is produced. -/
theorem c4_malformed_skipped_witness :
    ∃ w, Cpr.interpretEntry (Cpr.TomlValue.table
        [("key", Cpr.TomlValue.str "k"), ("message", Cpr.TomlValue.str "m"),
         ("type", Cpr.TomlValue.str "zelect")]) = Cpr.EntryResult.skip w ∧
      ∀ qs ws, Cpr.interpretQuestions [] = .ok qs ws →
        Cpr.interpretQuestions
          [Cpr.TomlValue.table
            [("key", Cpr.TomlValue.str "k"), ("message", Cpr.TomlValue.str "m"),
             ("type", Cpr.TomlValue.str "zelect")]] = .ok qs (w :: ws) :=
  c4_malformed_skipped _ []
    (Or.inr ⟨_, "k", "m", "zelect", rfl, rfl, rfl, rfl, by decide⟩)


namespace Cpr

/-! ### Helper lemmas about the per-file walk -/

theorem walkFiles_cons_good {render : String → Except String String}
    {choices : Nat → ErrChoice} {f : SrcFile} {c o : String}
    (hc : f.read = some c) (ho : render c = Except.ok o) (hw : f.writeOk = true)
    (rest : List SrcFile) (k : Nat) (b : Bool) :
    walkFiles render choices (f :: rest) k b =
      (match walkFiles render choices rest k b with
       | .error e => .error e
       | .ok ws => .ok ((f.name, o) :: ws)) := by
  rw [walkFiles, hc]
  simp [ho, hw]

theorem expectedWrites_cons_good {render : String → Except String String}
    {f : SrcFile} {c o : String}
    (hc : f.read = some c) (ho : render c = Except.ok o)
    (rest : List SrcFile) :
    expectedWrites render (f :: rest) =
      (f.name, o) :: expectedWrites render rest := by
  rw [expectedWrites, hc]
  simp [ho]

theorem walkFiles_all_good (render : String → Except String String)
    (choices : Nat → ErrChoice) :
    ∀ (files : List SrcFile) (k : Nat) (b : Bool),
      (∀ f ∈ files, fileGood render f) →
      walkFiles render choices files k b = .ok (expectedWrites render files) := by
  intro files
  induction files with
  | nil => intro k b _; rfl
  | cons f rest ih =>
    intro k b hg
    obtain ⟨c, o, hc, ho, hw⟩ := hg f (List.mem_cons_self f rest)
    have hrest : ∀ x ∈ rest, fileGood render x :=
      fun x hx => hg x (List.mem_cons_of_mem f hx)
    rw [walkFiles_cons_good hc ho hw rest k b, ih k b hrest,
      expectedWrites_cons_good hc ho rest]

theorem walkFiles_append_good (render : String → Except String String)
    (choices : Nat → ErrChoice) :
    ∀ (pre rest : List SrcFile) (k : Nat) (b : Bool),
      (∀ f ∈ pre, fileGood render f) →
      walkFiles render choices (pre ++ rest) k b =
        (match walkFiles render choices rest k b with
         | .error e => .error e
         | .ok ws => .ok (expectedWrites render pre ++ ws)) := by
  intro pre
  induction pre with
  | nil =>
    intro rest k b _
    cases h : walkFiles render choices rest k b <;> simp [expectedWrites, h]
  | cons f pre ih =>
    intro rest k b hg
    obtain ⟨c, o, hc, ho, hw⟩ := hg f (List.mem_cons_self f pre)
    have hpre : ∀ x ∈ pre, fileGood render x :=
      fun x hx => hg x (List.mem_cons_of_mem f hx)
    show walkFiles render choices (f :: (pre ++ rest)) k b = _
    rw [walkFiles_cons_good hc ho hw (pre ++ rest) k b, ih rest k b hpre,
      expectedWrites_cons_good hc ho pre]
    cases h : walkFiles render choices rest k b <;> simp

end Cpr

/-- C5: the per-file error-recovery policy of the walk.  First, a file
whose read fails while `skip_all` is set is skipped silently — no prompt
is shown, nothing is written for it, and the walk continues exactly as
if the file were not there.  Second, any run of files that all read,
render and write successfully completes successfully with each of them
rendered and written.  Third, when the flag is not set and the user
answers `Abort`, the walk terminates with the original read failure
(`ReadFileFail` naming that file) as its error. -/
theorem c5_read_error_policy (render : String → Except String String)
    (choices : Nat → Cpr.ErrChoice) (k : Nat) :
    (∀ name wOk rest,
      Cpr.walkFiles render choices (⟨name, Option.none, wOk⟩ :: rest) k true =
        Cpr.walkFiles render choices rest k true) ∧
    (∀ files b, (∀ f ∈ files, Cpr.fileGood render f) →
      Cpr.walkFiles render choices files k b =
        .ok (Cpr.expectedWrites render files)) ∧
    (∀ name wOk rest, choices k = Cpr.ErrChoice.abort →
      Cpr.walkFiles render choices (⟨name, Option.none, wOk⟩ :: rest) k false =
        .error (Cpr.PipeError.readFileFail name)) := by
  refine ⟨?_, ?_, ?_⟩
  · intro name wOk rest
    rfl
  · intro files b hg
    exact Cpr.walkFiles_all_good render choices files k b hg
  · intro name wOk rest h
    rw [Cpr.walkFiles, h]
    rfl

/-- C5, witness: with `skip_all` set, the unreadable `a.txt` is skipped
and `b.txt` is still rendered and written; with the flag clear and the
user answering `Abort`, the walk fails with `ReadFileFail a.txt`. -/
theorem c5_read_error_policy_witness :
    Cpr.walkFiles Cpr.rendBad (fun _ => Cpr.ErrChoice.abort)
        [⟨"a.txt", Option.none, true⟩, ⟨"b.txt", some "hello", true⟩] 0 true =
      .ok [("b.txt", "hello")] ∧
    Cpr.walkFiles Cpr.rendBad (fun _ => Cpr.ErrChoice.abort)
        [⟨"a.txt", Option.none, true⟩] 0 false =
      .error (Cpr.PipeError.readFileFail "a.txt") := by
  have h := c5_read_error_policy Cpr.rendBad (fun _ => Cpr.ErrChoice.abort) 0
  have hg : ∀ f ∈ [(⟨"b.txt", some "hello", true⟩ : Cpr.SrcFile)],
      Cpr.fileGood Cpr.rendBad f := by
    intro f hf
    rw [List.mem_singleton] at hf
    subst hf
    exact ⟨"hello", "hello", rfl, rfl, rfl⟩
  refine ⟨?_, ?_⟩
  · rw [h.1 "a.txt" true [⟨"b.txt", some "hello", true⟩],
      h.2.1 [⟨"b.txt", some "hello", true⟩] true hg]
    rfl
  · exact h.2.2 "a.txt" true [] rfl

/-- C6, evaluation at a failing input: over the callback sequence
`sampleCloneStats` (one object-transfer callback, then three
delta-resolution callbacks) the reset flags are
`[false, false, true, true]`: no reset happens on the transition callback
(the second one), and a reset happens on every later delta-resolution
callback, so the visual range is reset twice, not exactly once — the
`started_resolution` guard in `clone_repository` fires on every delta
callback except the first instead of only on the first. -/
theorem c6_reset_not_once :
    ((Cpr.runTransferCallbacks "r" Cpr.initialCloneState Cpr.initialBarState
      Cpr.sampleCloneStats).2.2 = [false, false, true, true]) ∧
    ((Cpr.runTransferCallbacks "r" Cpr.initialCloneState Cpr.initialBarState
      Cpr.sampleCloneStats).2.2.count true = 2) :=
  ⟨rfl, rfl⟩

/-- C9, the claim as stated is false: prompting the project name
`MyProj` makes `new` create and initialize the directory `myproj`, the
lowercased name, not a directory named `MyProj`. -/
theorem c9_counterexample :
    Cpr.new [] true "MyProj" =
      .ok [Cpr.NewAction.createDir "myproj", Cpr.NewAction.runInit "myproj"] ∧
    ("myproj" : String) ≠ "MyProj" := by
  constructor
  · rfl
  · decide

/-- C9, amended: `new` creates a fresh directory named after the
lowercased prompted project name and runs `init` inside it; whenever
that lowercased-name directory already exists it fails with
`ProjectDirExists` before creating anything or cloning anything. -/
theorem c9_lowercased_dir (existing : List String) (createOk : Bool)
    (project_name : String) :
    (existing.contains (Cpr.rustToLowercase project_name) = false →
      createOk = true →
      Cpr.new existing createOk project_name =
        .ok [Cpr.NewAction.createDir (Cpr.rustToLowercase project_name),
             Cpr.NewAction.runInit (Cpr.rustToLowercase project_name)]) ∧
    (existing.contains (Cpr.rustToLowercase project_name) = true →
      Cpr.new existing createOk project_name =
        .error Cpr.ProjectInitError.ProjectDirExists) := by
  constructor
  · intro h1 h2
    have h1m : Cpr.rustToLowercase project_name ∉ existing := by
      simpa using h1
    simp [Cpr.new, h1m, h2]
  · intro h1
    have h1m : Cpr.rustToLowercase project_name ∈ existing := by
      simpa using h1
    simp [Cpr.new, h1m]

/-- C9 amended, witness: with directory `myproj` existing, `new` on the
prompted name `MyProj` fails with `ProjectDirExists`. -/
theorem c9_lowercased_dir_witness :
    Cpr.new ["myproj"] true "MyProj" =
      .error Cpr.ProjectInitError.ProjectDirExists :=
  (c9_lowercased_dir ["myproj"] true "MyProj").2 (by decide)

/-- C10: when the walked files contain `cpr.toml` (with readable
contents `c`) after a prefix of files that all process cleanly, the walk
treats `cpr.toml` like any other file.  If rendering `c` fails, the
whole run aborts with that render error.  If rendering succeeds, the run
succeeds, the rendered `cpr.toml` is among the writes performed by the
walk, and the cleanup step afterwards leaves no `cpr.toml` on disk. -/
theorem c10_cpr_toml_walked (render : String → Except String String)
    (choices : Nat → Cpr.ErrChoice) (pre post : List Cpr.SrcFile) (c : String)
    (hpre : ∀ f ∈ pre, Cpr.fileGood render f) :
    (∀ m, render c = .error m →
      Cpr.initRun render choices (pre ++ ⟨"cpr.toml", some c, true⟩ :: post) =
        .error (Cpr.PipeError.renderFail m)) ∧
    (∀ o, render c = .ok o → (∀ f ∈ post, Cpr.fileGood render f) →
      ∃ r, Cpr.initRun render choices
          (pre ++ ⟨"cpr.toml", some c, true⟩ :: post) = .ok r ∧
        ("cpr.toml", o) ∈ r.writes ∧ "cpr.toml" ∉ r.remaining) := by
  constructor
  · intro m hm
    have hcons : Cpr.walkFiles render choices
        (⟨"cpr.toml", some c, true⟩ :: post) 0 false =
        .error (Cpr.PipeError.renderFail m) := by
      rw [Cpr.walkFiles]
      simp [hm]
    unfold Cpr.initRun
    rw [Cpr.walkFiles_append_good render choices pre _ 0 false hpre, hcons]
  · intro o ho hpost
    have hcons : Cpr.walkFiles render choices
        (⟨"cpr.toml", some c, true⟩ :: post) 0 false =
        .ok (("cpr.toml", o) :: Cpr.expectedWrites render post) := by
      rw [Cpr.walkFiles_cons_good rfl ho rfl post 0 false,
        Cpr.walkFiles_all_good render choices post 0 false hpost]
    refine ⟨⟨Cpr.expectedWrites render pre
        ++ ("cpr.toml", o) :: Cpr.expectedWrites render post,
      ((pre ++ ⟨"cpr.toml", some c, true⟩ :: post).map (·.name)).filter
        (fun n => !(n == "cpr.toml"))⟩, ?_, ?_, ?_⟩
    · unfold Cpr.initRun
      rw [Cpr.walkFiles_append_good render choices pre _ 0 false hpre, hcons]
    · exact List.mem_append_right _ (List.mem_cons_self _ _)
    · simp [List.mem_filter]

/-- C10, witness: with `a.txt` rendering cleanly and `cpr.toml` holding
contents whose render fails, the whole run aborts with the render
error. -/
theorem c10_cpr_toml_walked_witness :
    Cpr.initRun Cpr.rendBad (fun _ => Cpr.ErrChoice.abort)
        [⟨"a.txt", some "x", true⟩, ⟨"cpr.toml", some "bad", true⟩] =
      .error (Cpr.PipeError.renderFail "format") := by
  have hg : ∀ f ∈ [(⟨"a.txt", some "x", true⟩ : Cpr.SrcFile)],
      Cpr.fileGood Cpr.rendBad f := by
    intro f hf
    rw [List.mem_singleton] at hf
    subst hf
    exact ⟨"x", "x", rfl, rfl, rfl⟩
  exact (c10_cpr_toml_walked Cpr.rendBad (fun _ => Cpr.ErrChoice.abort)
      [⟨"a.txt", some "x", true⟩] [] "bad" hg).1 "format" rfl
